import Mathlib

/-!
Shallow embedding of the `node-v8-workers` addon sources
(`src/mutate01/mutate.cpp`, `src/mutate02/mutate.cpp`,
`src/mutate03/mutate.cpp`) and proofs of the spec's testable properties.

The V8 engine itself is an external collaborator: the spec treats it as an
opaque key-value store, so the engine's object model is embedded as an
association list from string keys to numeric values.  Numeric values are
idealised as exact rationals (the spec's "64-bit float" fields only ever
hold `initial + 42*k`, which the claims treat as exact arithmetic).
-/

namespace NodeWorkers

/-- Numeric field values of the engine's records (idealised exact numbers). -/
abbrev Val := ℚ

/-- A shared record living in the engine's heap.  Modelled from the spec:
the engine's internal object model is external to `src/` and is specified
as an opaque key-value store with one relevant numeric field. -/
abbrev SharedRecord := List (String × Val)

/-- Engine property lookup on a record: first binding for the key wins. -/
def getField : SharedRecord → String → Option Val
  | [], _ => none
  | (k', v') :: rest, k => if k' = k then some v' else getField rest k

/-- Engine property write on a record: replaces the first binding for the
key, or appends a fresh binding when the key is absent. -/
def setField : SharedRecord → String → Val → SharedRecord
  | [], k, v => [(k, v)]
  | (k', v') :: rest, k, v =>
      if k' = k then (k, v) :: rest else (k', v') :: setField rest k v

/-- Engine NumberValue coercion applied to a property lookup.  Modelled from
the spec: the engine's missing-key behaviour is external to `src/`; §4.2
specifies "absent field is treated as numeric zero (engine-default behavior
for missing keys — must be reproduced faithfully)". -/
def numberValue : Option Val → Val
  | none => 0
  | some v => v

/-- The fixed increment added on every mutation (`current + 42` in all three
source files). -/
def INCREMENT : Val := 42

/-- The field key used by every mutation: `String::NewFromUtf8(isolate, "x")`. -/
def xKey : String := "x"

/-- MutationOperation: the read-modify-write sequence of
`src/mutate01/mutate.cpp` lines 13-15 (and identically
`src/mutate02/mutate.cpp` lines 17-18, `src/mutate03/mutate.cpp` lines
23-24): read property `"x"` as a number, add 42, write it back. -/
def mutateRecord (r : SharedRecord) : SharedRecord :=
  setField r xKey (numberValue (getField r xKey) + INCREMENT)

/-- The numeric value of a record's `"x"` field as the engine reads it. -/
def xVal (r : SharedRecord) : Val := numberValue (getField r xKey)

/-- Identity of a record inside the engine heap (which concrete record a
persistent handle refers to). -/
abbrev RecordId := ℕ

/-- State of the loaded addon: the module-global `Persistent<Object> persist`
(empty until `Setup`/`Start` resets it) together with the engine heap of
records it may point into. -/
structure AddonState where
  persist : Option RecordId
  heap : RecordId → SharedRecord

/-- `Setup` of `src/mutate01/mutate.cpp` lines 18-22 (and the registration
line `persist.Reset(isolate, args[0]->ToObject())` shared by `Start` in
`src/mutate02/mutate.cpp` line 24 and `src/mutate03/mutate.cpp` line 33):
resets the persistent handle to the given record, replacing any previous
referent.  No return value and no other effect. -/
def Setup (s : AddonState) (rid : RecordId) : AddonState :=
  { s with persist := some rid }

/-- `Mutate` of `src/mutate01/mutate.cpp` lines 7-16: dereference the
persistent handle and perform one MutationOperation on that record.  The
source performs no registration check and signals no error on any path.
The `none` branch is modelled from the spec: dereferencing an empty
persistent handle is engine behaviour external to `src/`, and §7 specifies
that a missing record reference is not distinguished from success, so it is
modelled as leaving every record unchanged. -/
def Mutate (s : AddonState) : AddonState :=
  match s.persist with
  | some rid => { s with heap := Function.update s.heap rid (mutateRecord (s.heap rid)) }
  | none => s

/-! ### V3 worker loop (`src/mutate03/mutate.cpp`)

The lock-guarded worker body is embedded twice, at two granularities:
as the sequence of engine-relevant events of one wake (for the locking
discipline and trace claims) and as its effect on the registered record
(one MutationOperation per wake, for the value claims). -/

/-- Engine-relevant events of the V3 worker body, in source order:
sleep (`sleep_for(500ms)`), lock acquisition (`v8::Locker locker(isolate)`),
isolate entry (`isolate->Enter()`), handle-scope creation (`HandleScope`),
key-handle creation (`String::NewFromUtf8`), target-handle creation
(`Local<Object>::New`), property read (`Get`), property write (`Set`), and
lock release (the `Locker` destructor at the end of the loop body's scope). -/
inductive Ev
  | sleep
  | acquire
  | enter
  | mkScope
  | mkKey
  | mkTarget
  | readX
  | writeX
  | release
deriving DecidableEq, Repr

/-- Events that touch the engine (record reads/writes and handle creation);
the pure sleep and the lock-protocol events themselves are not engine access. -/
def engineAccess : Ev → Bool
  | .mkScope => true
  | .mkKey => true
  | .mkTarget => true
  | .readX => true
  | .writeX => true
  | _ => false

/-- One wake of the V3 worker loop (`src/mutate03/mutate.cpp` lines 11-28),
as its event sequence in source order. -/
def wakeBody : List Ev :=
  [.sleep, .acquire, .enter, .mkScope, .mkKey, .mkTarget, .readX, .writeX, .release]

/-- Event trace of `n` consecutive wakes of the V3 worker loop. -/
def workerTrace : ℕ → List Ev
  | 0 => []
  | n + 1 => wakeBody ++ workerTrace n

/-- Effect of one V3 wake on the registered record: exactly the
MutationOperation of `src/mutate03/mutate.cpp` lines 21-24 (make handles,
`Get` the `"x"` property, `Set` it to `current + 42`). -/
def doWake (r : SharedRecord) : SharedRecord := mutateRecord r

/-- Record contents after `n` complete wakes of the V3 worker with no
concurrent callers (each wake's critical section runs without interleaving). -/
def runWorker : ℕ → SharedRecord → SharedRecord
  | 0, r => r
  | n + 1, r => runWorker n (doWake r)

/-- Scanner for the critical-section discipline: walks a trace carrying
whether the worker currently holds the lock; requires that `acquire` only
happens unlocked, `release` only locked, and every engine access happens
while the lock is held. -/
def wellLocked : List Ev → Bool → Bool
  | [], _ => true
  | .acquire :: rest, held => !held && wellLocked rest true
  | .release :: rest, held => held && wellLocked rest false
  | e :: rest, held => (!engineAccess e || held) && wellLocked rest held

/-- Scanner for acquire/release bracketing: like `wellLocked` but also
requires that the worker sleeps only while not holding the lock (so every
`acquire` is matched by exactly one `release` before the next sleep) and
that the trace ends with the lock free. -/
def lockBalanced : List Ev → Bool → Bool
  | [], held => !held
  | .sleep :: rest, held => !held && lockBalanced rest held
  | .acquire :: rest, held => !held && lockBalanced rest true
  | .release :: rest, held => held && lockBalanced rest false
  | _ :: rest, held => lockBalanced rest held

/-- A fault point inside the V3 critical section: an error raised while
creating the key handle, creating the target handle, reading the property,
or writing it back. -/
inductive Fault
  | atKey
  | atTarget
  | atRead
  | atWrite
deriving DecidableEq, Repr

/-- Critical-section events of one wake when an error is raised at the given
point (or `none` for a normal wake): the body runs in source order up to and
including the faulting step, after which the scope unwinds. -/
def csBody : Option Fault → List Ev
  | none => [.mkScope, .mkKey, .mkTarget, .readX, .writeX]
  | some .atKey => [.mkScope, .mkKey]
  | some .atTarget => [.mkScope, .mkKey, .mkTarget]
  | some .atRead => [.mkScope, .mkKey, .mkTarget, .readX]
  | some .atWrite => [.mkScope, .mkKey, .mkTarget, .readX, .writeX]

/-- One wake of the V3 worker under the scoped-release semantics of the
source (`v8::Locker locker(isolate)` is a stack object, so its destructor
releases the lock on every exit path of the loop body, normal or unwinding
— the source's own comment at `src/mutate03/mutate.cpp` lines 26-27). -/
def wakeBodyF (f : Option Fault) : List Ev :=
  [.sleep, .acquire, .enter] ++ csBody f ++ [.release]

/-- Event trace of a run of V3 wakes, one entry of `fs` per wake giving the
fault (if any) raised inside that wake's critical section. -/
def faultTrace : List (Option Fault) → List Ev
  | [] => []
  | f :: fs => wakeBodyF f ++ faultTrace fs

/-! ### The lock (`v8::Locker`)

Modelled from the spec: the lock's implementation is external to `src/`
(`v8::Locker` belongs to the engine).  §4.3 specifies a token granted
exclusively to one caller, with `acquire()` blocking until no other thread
holds it — so a thread can take the token only from a state in which no
thread holds it, and can give up only a token it holds. -/

/-- Lock state: which threads currently hold the engine-entry token. -/
def LockState := ℕ → Bool

/-- Initial lock state: no thread holds the token. -/
def lockInit : LockState := fun _ => false

/-- Transitions of the lock: a thread acquires the token only when no
thread holds it (acquisition otherwise blocks, so no step fires), and a
thread releases only a token it holds. -/
inductive LockStep : LockState → LockState → Prop
  | acquire (s : LockState) (t : ℕ) (hfree : ∀ u, s u = false) :
      LockStep s (Function.update s t true)
  | release (s : LockState) (t : ℕ) (hheld : s t = true) :
      LockStep s (Function.update s t false)

/-- Lock states reachable from the initial (free) state by any interleaving
of acquisitions and releases by any threads. -/
def LockReachable : LockState → Prop :=
  Relation.ReflTransGen LockStep lockInit

/-- Mutual exclusion: at most one thread holds the token. -/
def AtMostOneHolder (s : LockState) : Prop :=
  ∀ t u, s t = true → s u = true → t = u

/-! ### V2 unsynchronized concurrent mutation (`src/mutate02/mutate.cpp`)

The V2 worker body performs the same read-modify-write as V1/V3 but with no
lock, so the read and the write of one MutationOperation are separate
atomic steps that steps of the other thread may interleave.  A thread is
its number of MutationOperations still to complete plus an optional pending
value (read but not yet written back); a schedule is the list of which
thread takes the next step. -/

/-- One unsynchronized actor: `ops` MutationOperations left to complete,
and the value read by an operation whose write-back has not yet happened. -/
structure ThreadSt where
  ops : ℕ
  pending : Option Val
deriving DecidableEq, Repr

/-- One atomic step of an unsynchronized actor on the shared record: with a
pending value, write it plus 42 back to `"x"` (completing one operation);
otherwise, if operations remain, read the current numeric value of `"x"`.
A finished actor has no step. -/
def stepThread (r : SharedRecord) (t : ThreadSt) : Option (SharedRecord × ThreadSt) :=
  match t.pending with
  | some v => some (setField r xKey (v + INCREMENT), ⟨t.ops - 1, none⟩)
  | none =>
    match t.ops with
    | 0 => none
    | _ + 1 => some (r, ⟨t.ops, some (xVal r)⟩)

/-- State of the V2 scenario: the shared record and two unsynchronized
actors mutating it (the detached worker thread and a second actor). -/
structure V2State where
  shared : SharedRecord
  ta : ThreadSt
  tb : ThreadSt
deriving DecidableEq, Repr

/-- One scheduled step: `true` steps actor `a`, `false` steps actor `b`;
`none` when the scheduled actor has no step. -/
def schedStep (who : Bool) (s : V2State) : Option V2State :=
  if who then
    (stepThread s.shared s.ta).map fun p => ⟨p.1, p.2, s.tb⟩
  else
    (stepThread s.shared s.tb).map fun p => ⟨p.1, s.ta, p.2⟩

/-- Run a schedule (an interleaving of the two actors) from a state. -/
def runSched : List Bool → V2State → Option V2State
  | [], s => some s
  | w :: ws, s => (schedStep w s).bind (runSched ws)

/-! ### Basic lemmas about the record operations -/

theorem getField_setField_self (r : SharedRecord) (k : String) (v : Val) :
    getField (setField r k v) k = some v := by
  induction r with
  | nil => simp [getField, setField]
  | cons hd tl ih =>
    obtain ⟨k', v'⟩ := hd
    by_cases h : k' = k
    · simp [setField, getField, h]
    · simp [setField, getField, h, ih]

theorem getField_setField_ne (r : SharedRecord) (k k' : String) (v : Val)
    (h : k' ≠ k) : getField (setField r k v) k' = getField r k' := by
  induction r with
  | nil =>
    have hk : k ≠ k' := Ne.symm h
    simp [getField, setField, hk]
  | cons hd tl ih =>
    obtain ⟨k'', v''⟩ := hd
    by_cases h2 : k'' = k
    · subst h2
      have hk : k'' ≠ k' := Ne.symm h
      simp [setField, getField, hk]
    · by_cases h3 : k'' = k'
      · simp [setField, getField, h2, h3, h]
      · simp [setField, getField, h2, h3, ih]

theorem xVal_mutateRecord (r : SharedRecord) :
    xVal (mutateRecord r) = xVal r + INCREMENT := by
  simp [xVal, mutateRecord, getField_setField_self, numberValue]

theorem getField_mutateRecord_ne (r : SharedRecord) (k : String) (h : k ≠ xKey) :
    getField (mutateRecord r) k = getField r k :=
  getField_setField_ne r xKey k _ h

theorem xVal_mutateRecord_iterate (k : ℕ) (r : SharedRecord) :
    xVal (mutateRecord^[k] r) = xVal r + INCREMENT * k := by
  induction k generalizing r with
  | zero => simp
  | succ k ih =>
    rw [Function.iterate_succ_apply, ih, xVal_mutateRecord]
    push_cast
    ring

theorem mutate_iterate (k : ℕ) (s : AddonState) (rid : RecordId)
    (h : s.persist = some rid) :
    (Mutate^[k] s).persist = some rid ∧
    (Mutate^[k] s).heap rid = mutateRecord^[k] (s.heap rid) ∧
    ∀ rid', rid' ≠ rid → (Mutate^[k] s).heap rid' = s.heap rid' := by
  induction k generalizing s with
  | zero => exact ⟨h, rfl, fun _ _ => rfl⟩
  | succ k ih =>
    have hpers : (Mutate s).persist = some rid := by
      simp [Mutate, h]
    have hrid : (Mutate s).heap rid = mutateRecord (s.heap rid) := by
      simp [Mutate, h, Function.update_same]
    have hother : ∀ rid', rid' ≠ rid → (Mutate s).heap rid' = s.heap rid' := by
      intro rid' hne
      simp [Mutate, h, Function.update_noteq hne]
    obtain ⟨ih1, ih2, ih3⟩ := ih (Mutate s) hpers
    refine ⟨by rwa [Function.iterate_succ_apply], ?_, ?_⟩
    · rw [Function.iterate_succ_apply, ih2, hrid, ← Function.iterate_succ_apply]
    · intro rid' hne
      rw [Function.iterate_succ_apply, ih3 rid' hne, hother rid' hne]

theorem mutate_missing_gives_42 (r : SharedRecord) (h : getField r xKey = none) :
    getField (mutateRecord r) xKey = some 42 ∧ xVal (mutateRecord r) = 42 := by
  constructor
  · rw [mutateRecord, h, getField_setField_self]
    norm_num [numberValue, INCREMENT]
  · rw [xVal, mutateRecord, h, getField_setField_self]
    norm_num [numberValue, INCREMENT]

theorem xVal_runWorker (n : ℕ) (r : SharedRecord) :
    xVal (runWorker n r) = xVal r + INCREMENT * n := by
  induction n generalizing r with
  | zero => simp [runWorker]
  | succ n ih =>
    rw [runWorker, ih, doWake, xVal_mutateRecord]
    push_cast
    ring

/-! ### Claim theorems: the synchronous variant (V1) and shared record model -/

/-- C1: single-thread correctness of V1 — after `setup(r)` and then `k`
calls of `mutate()` from the one host thread, the `"x"` field of the
registered record holds its numeric value at setup time plus `42 * k`. -/
theorem v1_single_thread_correct (s : AddonState) (rid : RecordId) (k : ℕ) :
    xVal ((Mutate^[k] (Setup s rid)).heap rid) = xVal (s.heap rid) + INCREMENT * k := by
  obtain ⟨-, h2, -⟩ := mutate_iterate k (Setup s rid) rid rfl
  rw [h2]
  exact xVal_mutateRecord_iterate k (s.heap rid)

/-- C4: missing-field default — one MutationOperation on a record with no
`"x"` field reads the engine default 0 and therefore writes exactly 42. -/
theorem missing_field_default (r : SharedRecord) (h : getField r xKey = none) :
    getField (mutateRecord r) xKey = some 42 ∧ xVal (mutateRecord r) = 42 :=
  mutate_missing_gives_42 r h

/-- Witness for C4 at the empty record. -/
theorem missing_field_default_wit :
    getField (mutateRecord []) xKey = some 42 ∧ xVal (mutateRecord []) = 42 :=
  missing_field_default [] rfl

/-- C5: registration replacement (last write wins) — registering `r1` and
then `r2 ≠ r1` leaves the handle on `r2` only; `k` subsequent mutations
increment `r2`'s `"x"` field and leave the record `r1` entirely unchanged. -/
theorem registration_last_write_wins (s : AddonState) (r1 r2 : RecordId) (k : ℕ)
    (hne : r1 ≠ r2) :
    (Setup (Setup s r1) r2).persist = some r2 ∧
    (Mutate^[k] (Setup (Setup s r1) r2)).heap r1 = s.heap r1 ∧
    xVal ((Mutate^[k] (Setup (Setup s r1) r2)).heap r2) =
      xVal (s.heap r2) + INCREMENT * k := by
  obtain ⟨-, h2, h3⟩ := mutate_iterate k (Setup (Setup s r1) r2) r2 rfl
  exact ⟨rfl, h3 r1 hne, by rw [h2]; exact xVal_mutateRecord_iterate k _⟩

/-- Witness for C5: two records 0 and 1, one mutation after re-registration. -/
theorem registration_last_write_wins_wit :
    (Setup (Setup (⟨none, fun _ => []⟩ : AddonState) 0) 1).persist = some 1 ∧
    (Mutate^[1] (Setup (Setup (⟨none, fun _ => []⟩ : AddonState) 0) 1)).heap 0 = [] ∧
    xVal ((Mutate^[1] (Setup (Setup (⟨none, fun _ => []⟩ : AddonState) 0) 1)).heap 1) =
      xVal [] + INCREMENT * 1 :=
  registration_last_write_wins ⟨none, fun _ => []⟩ 0 1 1 (by decide)

/-- C10: frame property of MutationOperation — a mutation (via `mutate()` or
one worker wake) changes only the `"x"` field of the registered record:
other fields of that record keep their lookup results, and every other
record in the heap is untouched. -/
theorem mutation_touches_only_x (s : AddonState) (rid : RecordId)
    (r : SharedRecord) (h : s.persist = some rid) :
    (∀ k, k ≠ xKey → getField (mutateRecord r) k = getField r k) ∧
    doWake r = mutateRecord r ∧
    (Mutate s).heap rid = mutateRecord (s.heap rid) ∧
    (∀ rid', rid' ≠ rid → (Mutate s).heap rid' = s.heap rid') := by
  refine ⟨fun k hk => getField_mutateRecord_ne r k hk, rfl, ?_, ?_⟩
  · simp [Mutate, h, Function.update_same]
  · intro rid' hne
    simp [Mutate, h, Function.update_noteq hne]

/-- Witness for C10: a registered record 0 and an unrelated record 1. -/
theorem mutation_touches_only_x_wit :
    getField (mutateRecord [("y", (7 : Val))]) "y" = getField [("y", (7 : Val))] "y" ∧
    (Mutate (⟨some 0, fun _ => []⟩ : AddonState)).heap 0 = mutateRecord [] ∧
    (Mutate (⟨some 0, fun _ => []⟩ : AddonState)).heap 1 = [] :=
  ⟨(mutation_touches_only_x ⟨some 0, fun _ => []⟩ 0 [("y", (7 : Val))] rfl).1 "y"
      (by decide),
   (mutation_touches_only_x ⟨some 0, fun _ => []⟩ 0 [] rfl).2.2.1,
   (mutation_touches_only_x ⟨some 0, fun _ => []⟩ 0 [] rfl).2.2.2 1 (by decide)⟩

/-- C8: baseline error behaviour — the mutation path distinguishes nothing
from success: with no registered record, `Mutate` signals no error and
leaves every record unchanged (there is no fail-fast registration check),
and on a registered record with no `"x"` field it proceeds like any
successful mutation, writing 42. -/
theorem baseline_no_error_paths (s : AddonState) :
    (s.persist = none → Mutate s = s) ∧
    (∀ rid, s.persist = some rid → getField (s.heap rid) xKey = none →
      getField ((Mutate s).heap rid) xKey = some 42) := by
  constructor
  · intro h
    simp [Mutate, h]
  · intro rid h hx
    have : (Mutate s).heap rid = mutateRecord (s.heap rid) := by
      simp [Mutate, h, Function.update_same]
    rw [this]
    exact (mutate_missing_gives_42 _ hx).1

/-- Witness for C8: an unregistered state and a registered record missing
its `"x"` field. -/
theorem baseline_no_error_paths_wit :
    Mutate (⟨none, fun _ => []⟩ : AddonState) = (⟨none, fun _ => []⟩ : AddonState) ∧
    getField ((Mutate (⟨some 0, fun _ => []⟩ : AddonState)).heap 0) xKey = some 42 :=
  ⟨(baseline_no_error_paths ⟨none, fun _ => []⟩).1 rfl,
   (baseline_no_error_paths ⟨some 0, fun _ => []⟩).2 0 rfl rfl⟩

/-! ### Claim theorems: the lock-guarded background variant (V3) -/

theorem wellLocked_wakeBody (t : List Ev) :
    wellLocked (wakeBody ++ t) false = wellLocked t false := rfl

theorem lockBalanced_wakeBody (t : List Ev) :
    lockBalanced (wakeBody ++ t) false = lockBalanced t false := rfl

theorem count_readX_wakeBody : wakeBody.count Ev.readX = 1 := by decide

theorem count_writeX_wakeBody : wakeBody.count Ev.writeX = 1 := by decide

/-- C2: serialized background correctness of V3 — from a record whose `"x"`
field starts at 0, a run of the lock-guarded worker covering exactly `N`
wakes (each wake one read-modify-write under the lock, no concurrent
synchronous callers) leaves `"x"` at exactly `42 * N`: no update is lost. -/
theorem v3_serialized_correct (N : ℕ) (r : SharedRecord)
    (h : getField r xKey = some 0) :
    xVal (runWorker N r) = INCREMENT * (N : Val) := by
  rw [xVal_runWorker, xVal, h]
  simp [numberValue]

/-- Witness for C2 at N = 0, 1, 10 and 100 wakes from `x = 0`. -/
theorem v3_serialized_correct_wit :
    xVal (runWorker 0 [(xKey, 0)]) = INCREMENT * ((0 : ℕ) : Val) ∧
    xVal (runWorker 1 [(xKey, 0)]) = INCREMENT * ((1 : ℕ) : Val) ∧
    xVal (runWorker 10 [(xKey, 0)]) = INCREMENT * ((10 : ℕ) : Val) ∧
    xVal (runWorker 100 [(xKey, 0)]) = INCREMENT * ((100 : ℕ) : Val) :=
  ⟨v3_serialized_correct 0 [(xKey, 0)] rfl, v3_serialized_correct 1 [(xKey, 0)] rfl,
   v3_serialized_correct 10 [(xKey, 0)] rfl, v3_serialized_correct 100 [(xKey, 0)] rfl⟩

/-- C3: mutual exclusion — in every lock state reachable from the free
state, at most one thread holds the engine-entry token; the token is never
granted to two callers simultaneously. -/
theorem lock_mutual_exclusion (s : LockState) (h : LockReachable s) :
    AtMostOneHolder s := by
  induction h with
  | refl =>
    intro t u ht _
    simp [lockInit] at ht
  | tail hsteps step ih =>
    cases step with
    | acquire t hfree =>
      intro x y hx hy
      have hxt : x = t := by
        by_contra hne
        rw [Function.update_noteq hne] at hx
        rw [hfree x] at hx
        exact absurd hx (by decide)
      have hyt : y = t := by
        by_contra hne
        rw [Function.update_noteq hne] at hy
        rw [hfree y] at hy
        exact absurd hy (by decide)
      rw [hxt, hyt]
    | release t hheld =>
      intro x y hx hy
      have hxt : x ≠ t := by
        intro hh
        subst hh
        rw [Function.update_same] at hx
        exact absurd hx (by decide)
      have hyt : y ≠ t := by
        intro hh
        subst hh
        rw [Function.update_same] at hy
        exact absurd hy (by decide)
      rw [Function.update_noteq hxt] at hx
      rw [Function.update_noteq hyt] at hy
      exact ih x y hx hy

/-- Witness for C3: the state right after thread 0 acquires the free token. -/
theorem lock_mutual_exclusion_wit :
    AtMostOneHolder (Function.update lockInit 0 true) :=
  lock_mutual_exclusion (Function.update lockInit 0 true)
    (Relation.ReflTransGen.single (LockStep.acquire lockInit 0 fun _ => rfl))

/-- C6: worker-loop access discipline of V3 — over any number of wakes, the
worker's trace keeps the critical-section discipline (every engine access,
including handle creation, happens while the lock is held; acquire and
release strictly alternate and the worker only sleeps unlocked, so each
wake's single read-modify-write is bracketed by its acquire and release),
and a run of `N` wakes performs exactly `N` reads and `N` writes of `"x"`. -/
theorem worker_cs_discipline (N : ℕ) :
    wellLocked (workerTrace N) false = true ∧
    lockBalanced (workerTrace N) false = true ∧
    (workerTrace N).count Ev.readX = N ∧
    (workerTrace N).count Ev.writeX = N := by
  induction N with
  | zero => exact ⟨rfl, rfl, rfl, rfl⟩
  | succ N ih =>
    obtain ⟨ih1, ih2, ih3, ih4⟩ := ih
    refine ⟨?_, ?_, ?_, ?_⟩
    · rw [workerTrace, wellLocked_wakeBody]
      exact ih1
    · rw [workerTrace, lockBalanced_wakeBody]
      exact ih2
    · rw [workerTrace, List.count_append, ih3, count_readX_wakeBody]
      omega
    · rw [workerTrace, List.count_append, ih4, count_writeX_wakeBody]
      omega

theorem lockBalanced_wakeBodyF (f : Option Fault) (t : List Ev) :
    lockBalanced (wakeBodyF f ++ t) false = lockBalanced t false := by
  cases f with
  | none => rfl
  | some pt => cases pt <;> rfl

theorem count_acquire_wakeBodyF (f : Option Fault) :
    (wakeBodyF f).count Ev.acquire = 1 := by
  cases f with
  | none => decide
  | some pt => cases pt <;> decide

theorem count_release_wakeBodyF (f : Option Fault) :
    (wakeBodyF f).count Ev.release = 1 := by
  cases f with
  | none => decide
  | some pt => cases pt <;> decide

/-- C7: guaranteed scoped release — for any run of worker wakes, with an
error optionally raised at any point inside each wake's critical section,
the scoped lock is released on every exit path: the trace stays balanced
(each acquire is matched by exactly one release before the next sleep, and
the run ends with the lock free), with exactly one acquire and one release
per wake, so an error inside the critical section never leaks the lock. -/
theorem worker_scoped_release (fs : List (Option Fault)) :
    lockBalanced (faultTrace fs) false = true ∧
    (faultTrace fs).count Ev.acquire = fs.length ∧
    (faultTrace fs).count Ev.release = fs.length := by
  induction fs with
  | nil => exact ⟨rfl, rfl, rfl⟩
  | cons f fs ih =>
    obtain ⟨ih1, ih2, ih3⟩ := ih
    refine ⟨?_, ?_, ?_⟩
    · rw [faultTrace, lockBalanced_wakeBodyF]
      exact ih1
    · rw [faultTrace, List.count_append, ih2, count_acquire_wakeBodyF, List.length_cons]
      omega
    · rw [faultTrace, List.count_append, ih3, count_release_wakeBodyF, List.length_cons]
      omega

/-! ### Claim theorems: the unsynchronized background variant (V2) -/

theorem runSched_append (l1 l2 : List Bool) (s : V2State) :
    runSched (l1 ++ l2) s = (runSched l1 s).bind (runSched l2) := by
  induction l1 generalizing s with
  | nil => simp [runSched]
  | cons w ws ih =>
    simp only [List.cons_append, runSched]
    cases schedStep w s with
    | none => simp
    | some s2 => simp [ih]

theorem runSched_append_some (l1 l2 : List Bool) (s s2 : V2State)
    (h : runSched l1 s = some s2) :
    runSched (l1 ++ l2) s = runSched l2 s2 := by
  rw [runSched_append, h]
  rfl

theorem runSched_full_a (k : ℕ) (r : SharedRecord) (tB : ThreadSt) :
    runSched (List.replicate (2 * k) true) ⟨r, ⟨k, none⟩, tB⟩ =
      some ⟨mutateRecord^[k] r, ⟨0, none⟩, tB⟩ := by
  induction k generalizing r with
  | zero => rfl
  | succ k ih =>
    have h2 : 2 * (k + 1) = 2 * k + 1 + 1 := by ring
    have step1 : runSched (true :: true :: List.replicate (2 * k) true)
        ⟨r, ⟨k + 1, none⟩, tB⟩ =
        runSched (List.replicate (2 * k) true) ⟨mutateRecord r, ⟨k, none⟩, tB⟩ := rfl
    rw [h2, List.replicate_succ, List.replicate_succ, step1, ih,
      ← Function.iterate_succ_apply]

theorem runSched_full_b (k : ℕ) (r : SharedRecord) (tA : ThreadSt) :
    runSched (List.replicate (2 * k) false) ⟨r, tA, ⟨k, none⟩⟩ =
      some ⟨mutateRecord^[k] r, tA, ⟨0, none⟩⟩ := by
  induction k generalizing r with
  | zero => rfl
  | succ k ih =>
    have h2 : 2 * (k + 1) = 2 * k + 1 + 1 := by ring
    have step1 : runSched (false :: false :: List.replicate (2 * k) false)
        ⟨r, tA, ⟨k + 1, none⟩⟩ =
        runSched (List.replicate (2 * k) false) ⟨mutateRecord r, tA, ⟨k, none⟩⟩ := rfl
    rw [h2, List.replicate_succ, List.replicate_succ, step1, ih,
      ← Function.iterate_succ_apply]

/-- C9: V2 lost updates — with two unsynchronized actors each performing `M`
MutationOperations on the same record (the V2 worker never takes the lock,
so the read and write of an operation are separately interleavable), there
is an interleaving in which both actors complete all `M` operations yet the
final `"x"` value is strictly below `initial + 42 * 2 * M`, because
interleaved read-modify-write pairs overwrite each other; the fully
serialized schedule of the same two actors reaches exactly
`initial + 42 * 2 * M`, so the loss is caused by the interleaving alone. -/
theorem v2_lost_updates (M : ℕ) (r : SharedRecord) (v0 : Val) (hM : 1 ≤ M)
    (h : getField r xKey = some v0) :
    (∃ sched final, runSched sched ⟨r, ⟨M, none⟩, ⟨M, none⟩⟩ = some final ∧
      final.ta = ⟨0, none⟩ ∧ final.tb = ⟨0, none⟩ ∧
      xVal final.shared < v0 + INCREMENT * (2 * (M : Val))) ∧
    (∃ serial, runSched
        (List.replicate (2 * M) true ++ List.replicate (2 * M) false)
        ⟨r, ⟨M, none⟩, ⟨M, none⟩⟩ = some serial ∧
      serial.ta = ⟨0, none⟩ ∧ serial.tb = ⟨0, none⟩ ∧
      xVal serial.shared = v0 + INCREMENT * (2 * (M : Val))) := by
  obtain ⟨m, rfl⟩ := Nat.exists_eq_succ_of_ne_zero (by omega : M ≠ 0)
  have hx : xVal r = v0 := by simp [xVal, h, numberValue]
  have hmpos : (0 : Val) < (m : Val) + 1 := by positivity
  constructor
  · have s1 : runSched [true] ⟨r, ⟨m + 1, none⟩, ⟨m + 1, none⟩⟩ =
        some ⟨r, ⟨m + 1, some (xVal r)⟩, ⟨m + 1, none⟩⟩ := rfl
    have s3 : runSched [true]
        ⟨mutateRecord^[m + 1] r, ⟨m + 1, some (xVal r)⟩, ⟨0, none⟩⟩ =
        some ⟨setField (mutateRecord^[m + 1] r) xKey (xVal r + INCREMENT),
          ⟨m, none⟩, ⟨0, none⟩⟩ := rfl
    refine ⟨[true] ++ (List.replicate (2 * (m + 1)) false ++
        ([true] ++ List.replicate (2 * m) true)),
      ⟨mutateRecord^[m] (setField (mutateRecord^[m + 1] r) xKey
          (xVal r + INCREMENT)), ⟨0, none⟩, ⟨0, none⟩⟩, ?_, rfl, rfl, ?_⟩
    · rw [runSched_append_some _ _ _ _ s1]
      rw [runSched_append_some _ _ _ _
        (runSched_full_b (m + 1) r ⟨m + 1, some (xVal r)⟩)]
      rw [runSched_append_some _ _ _ _ s3]
      exact runSched_full_a m _ ⟨0, none⟩
    · have hv : xVal (mutateRecord^[m] (setField (mutateRecord^[m + 1] r) xKey
          (xVal r + INCREMENT))) = v0 + INCREMENT + INCREMENT * m := by
        rw [xVal_mutateRecord_iterate, xVal, getField_setField_self, hx]
        rfl
      rw [hv, INCREMENT]
      push_cast
      nlinarith [hmpos]
  · refine ⟨⟨mutateRecord^[m + 1] (mutateRecord^[m + 1] r),
      ⟨0, none⟩, ⟨0, none⟩⟩, ?_, rfl, rfl, ?_⟩
    · rw [runSched_append_some _ _ _ _ (runSched_full_a (m + 1) r ⟨m + 1, none⟩)]
      exact runSched_full_b (m + 1) _ ⟨0, none⟩
    · rw [xVal_mutateRecord_iterate, xVal_mutateRecord_iterate, hx, INCREMENT]
      push_cast
      ring

/-- Witness for C9: two actors of one operation each, record starting at 0. -/
theorem v2_lost_updates_wit :
    (∃ sched final, runSched sched ⟨[(xKey, 0)], ⟨1, none⟩, ⟨1, none⟩⟩ = some final ∧
      final.ta = ⟨0, none⟩ ∧ final.tb = ⟨0, none⟩ ∧
      xVal final.shared < 0 + INCREMENT * (2 * ((1 : ℕ) : Val))) ∧
    (∃ serial, runSched
        (List.replicate (2 * 1) true ++ List.replicate (2 * 1) false)
        ⟨[(xKey, 0)], ⟨1, none⟩, ⟨1, none⟩⟩ = some serial ∧
      serial.ta = ⟨0, none⟩ ∧ serial.tb = ⟨0, none⟩ ∧
      xVal serial.shared = 0 + INCREMENT * (2 * ((1 : ℕ) : Val))) :=
  v2_lost_updates 1 [(xKey, 0)] 0 (by decide) rfl

end NodeWorkers
